import Mathlib

/-!
Shallow embedding of `pybkgmodel/data.py` (event loaders, `EventSample`,
`RunSummary`, run-neighbour search).

Modelling conventions:
* A numpy float scalar is `PyVal := Option ℚ`: `some q` is a finite value,
  `none` is a non-finite value (NaN or ±Inf).  Arithmetic on `none`
  propagates `none` (NaN semantics); comparisons against `none` are `false`
  (NaN comparison semantics).  Exact rationals stand in for IEEE doubles.
* An astropy `Quantity` is represented by its magnitude in a canonical
  unit (angles in degrees, times in days for MJD, seconds for durations),
  so a `x * u.deg` tagging in the source is the identity on magnitudes.
* Python exceptions are `Except String`: `Except.error` marks a raised,
  uncaught exception; the string names the Python exception.
* Astropy frame transformations (AltAz ↔ ICRS) are external library calls;
  they enter the embedding as explicit function parameters, and a
  `SkyCoord` built in an AltAz frame carries the transformation result as
  a field.
-/

namespace PyBkgModel

/-- A numpy float64 scalar: `some q` finite, `none` non-finite (NaN/Inf). -/
abbrev PyVal := Option ℚ

/-- `numpy.isfinite` on one scalar. -/
def isFiniteV (v : PyVal) : Bool := v.isSome

/-- Addition with NaN propagation. -/
def addV : PyVal → PyVal → PyVal
  | some a, some b => some (a + b)
  | _, _ => none

/-- Subtraction with NaN propagation. -/
def subV : PyVal → PyVal → PyVal
  | some a, some b => some (a - b)
  | _, _ => none

/-- Multiplication with NaN propagation. -/
def mulV : PyVal → PyVal → PyVal
  | some a, some b => some (a * b)
  | _, _ => none

/-- Division with NaN propagation.  Rational division by zero yields `0`
where a float would give Inf; no claim in this development depends on the
divide-by-zero value. -/
def divV : PyVal → PyVal → PyVal
  | some a, some b => some (a / b)
  | _, _ => none

/-- Strict `<` comparison; any comparison involving NaN is `false`. -/
def ltV : PyVal → PyVal → Bool
  | some a, some b => decide (a < b)
  | _, _ => false

/-- Strict `>` comparison; any comparison involving NaN is `false`. -/
def gtV : PyVal → PyVal → Bool
  | some a, some b => decide (a > b)
  | _, _ => false

/-- Pointwise minimum with NaN propagation (as in `numpy.amin` folding). -/
def minV : PyVal → PyVal → PyVal
  | some a, some b => some (min a b)
  | _, _ => none

/-- `numpy.sort`: finite values ascending, non-finite values sorted last. -/
def npSort (xs : List PyVal) : List PyVal :=
  ((xs.filterMap id).insertionSort (· ≤ ·)).map some ++
    xs.filter (fun v => !v.isSome)

/-- `numpy.diff`: consecutive differences `x[i+1] - x[i]`. -/
def npDiff (xs : List PyVal) : List PyVal :=
  List.zipWith (fun a b => subV b a) xs xs.tail

/-- `numpy.sum`: `0` on the empty array, NaN-propagating otherwise. -/
def sumV (xs : List PyVal) : PyVal :=
  xs.foldr (fun v acc => addV v acc) (some 0)

/-- `numpy.amin` on a non-empty array (NaN-propagating). -/
def aminV (xs : List PyVal) : PyVal :=
  match xs with
  | [] => none
  | v :: rest => rest.foldl minV v

/-- `numpy.mean` on a non-empty array (NaN-propagating). -/
def meanV (xs : List PyVal) : PyVal :=
  match sumV xs with
  | some s => if xs.length = 0 then none else some (s / (xs.length : ℚ))
  | none => none

/-- Linear-interpolation percentile of a list of rationals, the default
`numpy.percentile` method: with `s` the ascending sort and
`h = q/100 * (n-1)`, the result is `s[⌊h⌋] + (h - ⌊h⌋) * (s[⌊h⌋+1] - s[⌊h⌋])`
(clamped at the top).  Only called on non-empty input. -/
def percentileQ (xs : List ℚ) (q : ℚ) : ℚ :=
  let s := xs.insertionSort (· ≤ ·)
  let n := s.length
  let h := q / 100 * ((n : ℚ) - 1)
  let i := h.floor.toNat
  let g := h - (h.floor : ℚ)
  let lo := s.getD i 0
  let hi := s.getD (min (i + 1) (n - 1)) 0
  lo + g * (hi - lo)

/-- `numpy.percentile` on possibly non-finite data: NaN in, NaN out. -/
def npPercentile (xs : List PyVal) (q : ℚ) : PyVal :=
  if xs.any (fun v => !v.isSome) then none
  else some (percentileQ (xs.filterMap id) q)

/-- Embedding of `EventSample.calc_eff_obs_time` (data.py lines 115–148).

* `mjd_sorted = numpy.sort(mjd)`, `time_diff = numpy.diff(mjd_sorted)`;
* if `time_diff` is non-empty: `time_diff_max` is its 99.99th percentile,
  `time_diff` is filtered to entries strictly below the threshold and
  `t_elapsed` is the sum of that filtered array filtered once more by the
  same predicate (lines 132–133 apply the mask twice); otherwise
  `t_elapsed = None`;
* `delta_t` is restricted to strictly positive entries; if any remain,
  `dead_time = amin`, `rate = 1 / (mean - dead_time)` and
  `t_eff = t_elapsed / (1 + rate * dead_time)` — which raises `TypeError`
  when `t_elapsed` is `None`; with no positive entries `t_eff = None`.

The result is `.ok none` for Python `None`, `.ok (some v)` for a value. -/
def calc_eff_obs_time (mjd delta_t : List PyVal) :
    Except String (Option PyVal) :=
  let mjd_sorted := npSort mjd
  let time_diff := npDiff mjd_sorted
  let t_elapsed : Option PyVal :=
    if time_diff.length ≠ 0 then
      let time_diff_max := npPercentile time_diff (9999 / 100)
      let td := time_diff.filter (fun x => ltV x time_diff_max)
      some (sumV (td.filter (fun x => ltV x time_diff_max)))
    else none
  let dpos := delta_t.filter (fun x => gtV x (some 0))
  if 0 < dpos.length then
    let dead_time := aminV dpos
    let rate := divV (some 1) (subV (meanV dpos) dead_time)
    match t_elapsed with
    | none => .error "TypeError: unsupported operand types for divide: NoneType and Quantity"
    | some te => .ok (some (divV te (addV (some 1) (mulV rate dead_time))))
  else .ok none

/-- The unified per-event container (data.py lines 48–113).  `delta_t` is
`none` when the loader passes Python `None` (the FITS DL3 loader);
`eff_obs_time` is `none` when undefined. -/
structure EventSample where
  event_ra : List PyVal
  event_dec : List PyVal
  event_energy : List PyVal
  pointing_ra : List PyVal
  pointing_dec : List PyVal
  pointing_az : List PyVal
  pointing_zd : List PyVal
  mjd : List PyVal
  delta_t : Option (List PyVal)
  eff_obs_time : Option PyVal
  deriving Repr, DecidableEq

/-- Embedding of `EventSample.__init__` (lines 51–69): when the
`eff_obs_time` argument is Python `None` it is computed by
`calc_eff_obs_time`, which can raise; `delta_t = None` with
`eff_obs_time = None` would also raise inside the computation
(`None > 0*u.s` is a `TypeError`). -/
def mkEventSample (era edec een pra pdec paz pzd mjd : List PyVal)
    (delta_t : Option (List PyVal)) (eff : Option PyVal) :
    Except String EventSample :=
  match eff with
  | some v =>
      .ok ⟨era, edec, een, pra, pdec, paz, pzd, mjd, delta_t, some v⟩
  | none =>
      match delta_t with
      | none => .error "TypeError: None is not comparable to Quantity"
      | some dt =>
          match calc_eff_obs_time mjd dt with
          | .error e => .error e
          | .ok t =>
              .ok ⟨era, edec, een, pra, pdec, paz, pzd, mjd, some dt, t⟩

/-- `EventSample.pointing_alt` (lines 107–109): derived as
`90 deg - pointing_zd`, never stored. -/
def EventSample.pointing_alt (s : EventSample) : List PyVal :=
  s.pointing_zd.map (fun v => subV (some 90) v)

/-! ### Specification-side formulation of the effective-time algorithm

These definitions restate, over plain rationals, the algorithm as the
specification describes it (sorted consecutive differences, 99.99th
percentile threshold, sum of sub-threshold differences, minimum positive
`delta_t` as dead time, `rate = 1/(mean - dead)`,
`t_eff = t_elapsed / (1 + rate * dead)`); they are compared against the
code embedding `calc_eff_obs_time`. -/

/-- Consecutive differences of the ascending sort of the event MJDs. -/
def sortedMjdDiffs (mjd : List ℚ) : List ℚ :=
  let s := mjd.insertionSort (· ≤ ·)
  List.zipWith (fun a b => b - a) s s.tail

/-- The dynamic gap-exclusion threshold: the 99.99th percentile of the
consecutive differences. -/
def gapThreshold (mjd : List ℚ) : ℚ :=
  percentileQ (sortedMjdDiffs mjd) (9999 / 100)

/-- Elapsed time: sum of the consecutive differences strictly below the
threshold (differences at or above it are excluded). -/
def tElapsedSpec (mjd : List ℚ) : ℚ :=
  ((sortedMjdDiffs mjd).filter (fun d => decide (d < gapThreshold mjd))).sum

/-- The strictly positive `delta_t` entries. -/
def posDeltaT (dt : List ℚ) : List ℚ :=
  dt.filter (fun d => decide (0 < d))

/-- Dead time: the minimum of the positive `delta_t` entries. -/
def deadTimeSpec (dt : List ℚ) : ℚ :=
  match posDeltaT dt with
  | [] => 0
  | x :: xs => xs.foldl min x

/-- Trigger rate: `1 / (mean of positive delta_t - dead_time)`. -/
def rateSpec (dt : List ℚ) : ℚ :=
  1 / ((posDeltaT dt).sum / ((posDeltaT dt).length : ℚ) - deadTimeSpec dt)

/-- Effective live time per the specification formula. -/
def tEffSpec (mjd dt : List ℚ) : ℚ :=
  tElapsedSpec mjd / (1 + rateSpec dt * deadTimeSpec dt)

/-! ### Bridge lemmas between the NaN-aware pipeline and the rational one -/

lemma filterMap_id_map_some (l : List ℚ) : (l.map some).filterMap id = l := by
  induction l with
  | nil => rfl
  | cons x xs ih => simp [List.filterMap_cons, ih]

lemma npSort_map_some (l : List ℚ) :
    npSort (l.map some) = (l.insertionSort (· ≤ ·)).map some := by
  simp [npSort, filterMap_id_map_some, List.filter_map, Function.comp_def]

lemma zipWith_subV_map_some (l1 l2 : List ℚ) :
    List.zipWith (fun a b => subV b a) (l1.map some) (l2.map some) =
      (List.zipWith (fun a b => b - a) l1 l2).map some := by
  induction l1 generalizing l2 with
  | nil => simp
  | cons x xs ih => cases l2 <;> simp [subV, ih, List.map_zipWith]

lemma npDiff_map_some (l : List ℚ) :
    npDiff (l.map some) =
      (List.zipWith (fun a b => b - a) l l.tail).map some := by
  cases l with
  | nil => rfl
  | cons x xs =>
      show List.zipWith (fun a b => subV b a)
          ((x :: xs).map some) (xs.map some) = _
      simpa using zipWith_subV_map_some (x :: xs) xs

lemma sumV_map_some (l : List ℚ) : sumV (l.map some) = some l.sum := by
  induction l with
  | nil => rfl
  | cons x xs ih =>
      have h : sumV ((x :: xs).map some) = addV (some x) (sumV (xs.map some)) := rfl
      rw [h, ih]
      simp [addV]

lemma foldl_minV_map_some (xs : List ℚ) (x : ℚ) :
    (xs.map some).foldl minV (some x) = some (xs.foldl min x) := by
  induction xs generalizing x with
  | nil => rfl
  | cons y ys ih => simp [minV, ih]

lemma aminV_map_some (x : ℚ) (xs : List ℚ) :
    aminV ((x :: xs).map some) = some (xs.foldl min x) := by
  simp [aminV, foldl_minV_map_some]

lemma meanV_map_some (l : List ℚ) (h : l ≠ []) :
    meanV (l.map some) = some (l.sum / (l.length : ℚ)) := by
  simp [meanV, sumV_map_some, List.length_eq_zero, h]

lemma filter_ltV_map_some (l : List ℚ) (m : ℚ) :
    (l.map some).filter (fun x => ltV x (some m)) =
      (l.filter (fun x => decide (x < m))).map some := by
  simp [List.filter_map, Function.comp_def, ltV]

lemma filter_gtV_map_some (l : List ℚ) :
    (l.map some).filter (fun x => gtV x (some 0)) = (posDeltaT l).map some := by
  simp [List.filter_map, Function.comp_def, gtV, posDeltaT]

lemma npPercentile_map_some (l : List ℚ) (q : ℚ) :
    npPercentile (l.map some) q = some (percentileQ l q) := by
  simp [npPercentile, filterMap_id_map_some]

/-- C6: for a sample with at least two events and at least one strictly
positive `delta_t` entry, `calc_eff_obs_time` returns
`t_elapsed / (1 + rate * dead_time)` where `t_elapsed` sums the
consecutive differences of the sorted MJDs strictly below their 99.99th
percentile, `dead_time` is the minimum positive `delta_t`, and
`rate = 1 / (mean of positive delta_t - dead_time)`. -/
theorem calc_eff_obs_time_formula (mjd dt : List ℚ)
    (hm : 2 ≤ mjd.length) (hd : posDeltaT dt ≠ []) :
    calc_eff_obs_time (mjd.map some) (dt.map some) =
      .ok (some (some (tEffSpec mjd dt))) := by
  obtain ⟨x, xs, hxx⟩ : ∃ x xs, posDeltaT dt = x :: xs := by
    cases h : posDeltaT dt with
    | nil => exact absurd h hd
    | cons a as => exact ⟨a, as, rfl⟩
  have hs : (mjd.insertionSort (· ≤ ·)).length = mjd.length :=
    List.length_insertionSort _ _
  have hlen : (sortedMjdDiffs mjd).length ≠ 0 := by
    simp [sortedMjdDiffs, List.length_zipWith, hs, List.length_tail]
    omega
  unfold calc_eff_obs_time
  dsimp only []
  rw [npSort_map_some, npDiff_map_some]
  have hD : List.zipWith (fun a b => b - a) (mjd.insertionSort (· ≤ ·))
      (mjd.insertionSort (· ≤ ·)).tail = sortedMjdDiffs mjd := rfl
  rw [hD]
  simp only [List.length_map, npPercentile_map_some, filter_ltV_map_some,
    filter_gtV_map_some, if_pos hlen]
  rw [List.filter_filter]
  simp only [Bool.and_self, sumV_map_some, hxx, List.length_cons,
    aminV_map_some]
  rw [if_pos (Nat.succ_pos _)]
  rw [meanV_map_some _ (by simp)]
  simp only [divV, subV, mulV, addV]
  simp only [tEffSpec, tElapsedSpec, rateSpec, deadTimeSpec, gapThreshold, hxx,
    List.length_cons]

/-- Witness for C6: on `mjd = [0, 1, 3, 10]` (sorted differences
`[1, 2, 7]`, 99.99th percentile `6.999`, so the gap `7` is excluded and
`t_elapsed = 3`) and `delta_t = [2, 4, 6]` (dead time `2`, mean `4`,
rate `1/2`), the effective time is `3 / (1 + 1) = 3/2`. -/
theorem calc_eff_obs_time_formula_witness :
    2 ≤ ([0, 1, 3, 10] : List ℚ).length ∧ posDeltaT [2, 4, 6] ≠ [] ∧
      calc_eff_obs_time ([0, 1, 3, 10].map some) ([2, 4, 6].map some) =
        .ok (some (some (3 / 2))) := by
  refine ⟨by norm_num, by norm_num [posDeltaT]; exact List.cons_ne_nil _ _, ?_⟩
  rw [calc_eff_obs_time_formula [0, 1, 3, 10] [2, 4, 6] (by norm_num)
    (by norm_num [posDeltaT]; exact List.cons_ne_nil _ _)]
  norm_num [tEffSpec, tElapsedSpec, rateSpec, deadTimeSpec, gapThreshold,
    posDeltaT, sortedMjdDiffs, percentileQ, List.insertionSort,
    List.orderedInsert, Rat.floor]

/-- C3 (code-bug evidence): on a sample with a single event
(`mjd = [1]`, hence no consecutive differences and `t_elapsed = None`)
whose `delta_t` still holds a positive value, `calc_eff_obs_time` does not
return `None`: at line 144 it evaluates `None / (1 + rate * dead_time)`,
which raises `TypeError`. -/
theorem calc_eff_obs_time_single_event_raises :
    calc_eff_obs_time [some 1] [some (1 / 2)] =
      .error "TypeError: unsupported operand types for divide: NoneType and Quantity" := by
  norm_num [calc_eff_obs_time, npSort, npDiff, sumV, addV, subV, mulV, divV,
    ltV, gtV, minV, aminV, meanV, npPercentile, percentileQ, isFiniteV,
    List.insertionSort, List.orderedInsert, List.filterMap, List.zipWith,
    List.filter, List.foldr, List.foldl, List.getD]

/-- C9: in every `EventSample`, the altitude accessor has the same length
as the zenith-distance column and every entry equals `90 deg` minus the
corresponding `pointing_zd` entry; `pointing_alt` is a derived accessor
computed from `pointing_zd` (the sample stores no altitude column). -/
theorem pointing_alt_from_zd (s : EventSample) :
    s.pointing_alt.length = s.pointing_zd.length ∧
      ∀ i : ℕ, s.pointing_alt[i]? =
        (s.pointing_zd[i]?).map (fun v => subV (some 90) v) := by
  refine ⟨by simp [EventSample.pointing_alt], fun i => ?_⟩
  simp [EventSample.pointing_alt, List.getElem?_map]

/-! ### Sky coordinates, `RunSummary` and the neighbour search -/

/-- Equatorial (ICRS) coordinates, degrees. -/
structure IcrsCoord where
  ra : ℚ
  dec : ℚ
  deriving Repr, DecidableEq

/-- An astropy `SkyCoord` built in an `AltAz` frame: horizontal angles in
degrees, the frame's observation time as MJD, and the result of the
external astropy transformation to ICRS carried as data (the source
computes `.icrs` lazily from the same stored frame data). -/
structure SkyCoordAA where
  az : ℚ
  alt : ℚ
  obstime_mjd : ℚ
  icrs : IcrsCoord
  deriving Repr, DecidableEq

/-- `RunSummary` stored state (data.py lines 692–727): the four private
fields default to Python `None` and are assigned only inside the
`if len(events.mjd) != 0` branch of `__init__`. -/
structure RunSummary where
  obs_id : Option ℕ
  file_name : Option String
  tel_pointing_start : Option SkyCoordAA
  tel_pointing_stop : Option SkyCoordAA
  deriving Repr, DecidableEq

/-- `numpy.argmin`: index of the first minimum (loaders guarantee finite
MJD values, so this is stated over rationals). -/
def npArgminQ (xs : List ℚ) : ℕ :=
  match xs.enum with
  | [] => 0
  | p :: rest =>
      (rest.foldl (fun best q => if q.2 < best.2 then q else best) p).1

/-- `numpy.argmax`: index of the first maximum. -/
def npArgmaxQ (xs : List ℚ) : ℕ :=
  match xs.enum with
  | [] => 0
  | p :: rest =>
      (rest.foldl (fun best q => if best.2 < q.2 then q else best) p).1

/-- Embedding of `RunSummary.__init__` (lines 705–727) after the loader
produced `events` with parsed `obs_id` and the source `file_name`.
`toIcrs az alt mjd` stands for the astropy AltAz→ICRS transformation at
the fixed LST location; MJD/pointing entries are finite by the loader
contract (`Option.getD 0` extracts them).  All four fields are assigned
only when the sample has at least one event; otherwise every field keeps
its `None` default. -/
def runSummaryOfEvents (toIcrs : ℚ → ℚ → ℚ → IcrsCoord)
    (file_name : String) (obs_id : ℕ) (events : EventSample) : RunSummary :=
  if events.mjd.length ≠ 0 then
    let mjdQ := events.mjd.map (fun v => v.getD 0)
    let i0 := npArgminQ mjdQ
    let i1 := npArgmaxQ mjdQ
    let az := events.pointing_az.map (fun v => v.getD 0)
    let alt := events.pointing_alt.map (fun v => v.getD 0)
    let p0 : SkyCoordAA :=
      ⟨az.getD i0 0, alt.getD i0 0, mjdQ.getD i0 0,
        toIcrs (az.getD i0 0) (alt.getD i0 0) (mjdQ.getD i0 0)⟩
    let p1 : SkyCoordAA :=
      ⟨az.getD i1 0, alt.getD i1 0, mjdQ.getD i1 0,
        toIcrs (az.getD i1 0) (alt.getD i1 0) (mjdQ.getD i1 0)⟩
    { obs_id := some obs_id, file_name := some file_name,
      tel_pointing_start := some p0, tel_pointing_stop := some p1 }
  else
    { obs_id := none, file_name := none,
      tel_pointing_start := none, tel_pointing_stop := none }

/-- One row of the `QTable` returned by `RunSummary.to_qtable`; angular
entries are tagged `deg` by the source, `duration` is tagged seconds. -/
structure QTableRow where
  obs_id : Option ℕ
  mjd_start : ℚ
  mjd_stop : ℚ
  duration_s : ℚ
  az_tel_start : ℚ
  az_tel_stop : ℚ
  alt_tel_start : ℚ
  alt_tel_stop : ℚ
  ra_tel : ℚ
  dec_tel : ℚ
  file_name : Option String
  deriving Repr, DecidableEq

/-- `RunSummary.to_qtable` (lines 772–787).  `mjd_start`/`mjd_stop` are
the obstimes attached to the stored pointings, `duration` is their
difference converted from days to seconds, and — exactly as on line 783 —
the `dec_tel` entry is built from `tel_pointing_start.icrs.ra`.  On a
summary with unset pointing the Python attribute lookups raise
(`None` result here). -/
def RunSummary.to_qtable (r : RunSummary) : Option QTableRow :=
  match r.tel_pointing_start, r.tel_pointing_stop with
  | some ps, some pt =>
      some { obs_id := r.obs_id
             mjd_start := ps.obstime_mjd
             mjd_stop := pt.obstime_mjd
             duration_s := (pt.obstime_mjd - ps.obstime_mjd) * 86400
             az_tel_start := ps.az
             az_tel_stop := pt.az
             alt_tel_start := ps.alt
             alt_tel_stop := pt.alt
             ra_tel := ps.icrs.ra
             dec_tel := ps.icrs.ra
             file_name := r.file_name }
  | _, _ => none

/-- A run record on which every attribute accessed by
`find_run_neighbours` is defined (the function dereferences the pointing
and time bounds unconditionally). -/
structure DefinedRun where
  obs_id : ℕ
  file_name : String
  p_start : SkyCoordAA
  p_stop : SkyCoordAA
  deriving Repr, DecidableEq

/-- `RunSummary.mjd_start` (lines 756–758): the obstime of the stored
start pointing. -/
def DefinedRun.mjd_start (r : DefinedRun) : ℚ := r.p_start.obstime_mjd

/-- `RunSummary.mjd_stop` (lines 760–762). -/
def DefinedRun.mjd_stop (r : DefinedRun) : ℚ := r.p_stop.obstime_mjd

/-- Embedding of `find_run_neighbours` (data.py lines 15–45): a temporal
filter (either bound of the candidate within `time_delta` days of the
opposite bound of the target) followed by a pointing filter (angular
separation of the ICRS start pointings below `pointing_delta`).  The
astropy `separation` call is the parameter `sep`.  The source returns the
surviving candidates as a tuple, in input order, without modifying any
input. -/
def find_run_neighbours (sep : IcrsCoord → IcrsCoord → ℚ)
    (target_run : DefinedRun) (run_list : List DefinedRun)
    (time_delta pointing_delta : ℚ) : List DefinedRun :=
  let neihbours := run_list.filter (fun r =>
    decide (|r.mjd_start - target_run.mjd_stop| < time_delta) ||
    decide (|r.mjd_stop - target_run.mjd_start| < time_delta))
  neihbours.filter (fun r =>
    decide (sep target_run.p_start.icrs r.p_start.icrs < pointing_delta))

/-- C5: the neighbour search returns exactly the candidates passing both
the temporal test and the pointing test (their conjunction), as a
subsequence of the input list (hence preserving input order, with length
at most the number of candidates); being a pure function it modifies no
input. -/
theorem find_run_neighbours_spec (sep : IcrsCoord → IcrsCoord → ℚ)
    (target : DefinedRun) (runs : List DefinedRun) (td pd : ℚ) :
    find_run_neighbours sep target runs td pd =
        runs.filter (fun r =>
          (decide (|r.mjd_start - target.mjd_stop| < td) ||
            decide (|r.mjd_stop - target.mjd_start| < td)) &&
          decide (sep target.p_start.icrs r.p_start.icrs < pd)) ∧
      (find_run_neighbours sep target runs td pd).Sublist runs ∧
      (find_run_neighbours sep target runs td pd).length ≤ runs.length := by
  refine ⟨?_, ?_, ?_⟩
  · unfold find_run_neighbours
    rw [List.filter_filter]
    simp [Bool.and_comm]
  · exact (List.filter_sublist _).trans (List.filter_sublist _)
  · exact ((List.filter_sublist _).trans (List.filter_sublist _)).length_le

/-! ### Loader post-processing and the corrupted-file paths -/

/-- The all-columns finiteness mask,
`numpy.prod([numpy.isfinite(col) for col in cols], axis=0, dtype=bool)`,
for rectangular column sets (row count read off the first column). -/
def allFiniteMask (cols : List (List PyVal)) : List Bool :=
  (List.range (cols.headD []).length).map
    (fun i => cols.all (fun c => isFiniteV (c.getD i none)))

/-- Boolean-mask indexing `arr[mask]`. -/
def maskFilter (xs : List PyVal) (mask : List Bool) : List PyVal :=
  ((xs.zip mask).filter (fun p => p.2)).map (fun p => p.1)

/-- Dictionary access `event_data[name]`, raising `KeyError` when the
key is absent. -/
def getCol (ed : List (String × List PyVal)) (name : String) :
    Except String (List PyVal) :=
  match ed.lookup name with
  | some c => .ok c
  | none => .error ("KeyError: " ++ name)

/-- The shared post-processing of the ROOT loader (lines 365–372) and
the DL2 loader (lines 520–528): every column is filtered by the
all-columns finiteness mask (unit tags are identities on magnitudes). -/
def postProcessMasked (ed : List (String × List PyVal)) :
    List (String × List PyVal) :=
  let mask := allFiniteMask (ed.map (fun p => p.2))
  ed.map (fun p => (p.1, maskFilter p.2 mask))

lemma maskFilter_nil_right (xs : List PyVal) : maskFilter xs [] = [] := by
  simp [maskFilter]

lemma maskFilter_cons (x : PyVal) (xs : List PyVal) (b : Bool)
    (m : List Bool) :
    maskFilter (x :: xs) (b :: m) =
      if b then x :: maskFilter xs m else maskFilter xs m := by
  cases b <;> simp [maskFilter]

lemma maskFilter_length_congr (xs : List PyVal) (m : List Bool)
    (ys : List PyVal) (h : xs.length = ys.length) :
    (maskFilter xs m).length = (maskFilter ys m).length := by
  induction xs generalizing ys m with
  | nil =>
      cases ys with
      | nil => rfl
      | cons y ys => simp at h
  | cons x xs ih =>
      cases ys with
      | nil => simp at h
      | cons y ys =>
          cases m with
          | nil => simp [maskFilter_nil_right]
          | cons b mrest =>
              simp only [List.length_cons, Nat.succ_inj] at h
              rw [maskFilter_cons, maskFilter_cons]
              cases b <;> simp [ih _ _ h]

lemma mem_maskFilter (xs : List PyVal) (m : List Bool) (v : PyVal)
    (hv : v ∈ maskFilter xs m) :
    ∃ i : ℕ, i < xs.length ∧ i < m.length ∧ xs.getD i none = v ∧
      m.getD i false = true := by
  induction xs generalizing m with
  | nil => simp [maskFilter] at hv
  | cons x xs ih =>
      cases m with
      | nil => simp [maskFilter_nil_right] at hv
      | cons b mrest =>
          rw [maskFilter_cons] at hv
          cases b with
          | false =>
              simp only [Bool.false_eq_true, if_false] at hv
              obtain ⟨i, h1, h2, h3, h4⟩ := ih mrest hv
              exact ⟨i + 1, by simpa using h1, by simpa using h2, h3, h4⟩
          | true =>
              simp only [if_true, List.mem_cons] at hv
              rcases hv with h | h
              · exact ⟨0, by simp, by simp, h.symm, rfl⟩
              · obtain ⟨i, h1, h2, h3, h4⟩ := ih mrest h
                exact ⟨i + 1, by simpa using h1, by simpa using h2, h3, h4⟩

lemma allFiniteMask_getD (cols : List (List PyVal)) (i : ℕ)
    (hi : i < (allFiniteMask cols).length) :
    (allFiniteMask cols).getD i false =
      cols.all (fun c => isFiniteV (c.getD i none)) := by
  have hi2 : i < (cols.headD []).length := by
    simpa [allFiniteMask] using hi
  simp only [List.headD_eq_head?_getD] at hi2
  simp [allFiniteMask, List.getD_eq_getElem?_getD, List.getElem?_map,
    List.getElem?_range, hi2]

/-- Where the loaders apply the mask to every column (the ROOT and DL2
loaders), every surviving value is finite: the spec's "no returned column
contains a non-finite value". -/
lemma postProcessMasked_all_finite (ed : List (String × List PyVal)) :
    ∀ p ∈ postProcessMasked ed, ∀ v ∈ p.2, isFiniteV v = true := by
  intro p hp v hv
  obtain ⟨q, hq, hqp⟩ := List.mem_map.1 hp
  subst hqp
  obtain ⟨i, _, hi2, hgx, hgm⟩ := mem_maskFilter _ _ _ hv
  rw [allFiniteMask_getD _ _ hi2] at hgm
  have hqc : q.2 ∈ ed.map (fun p => p.2) := List.mem_map.2 ⟨q, hq, rfl⟩
  have := (List.all_eq_true.1 hgm) _ hqc
  rwa [hgx] at this

/-- Where the loaders apply the mask to every column, all returned
columns have the same length (the length is a function of the shared mask
and the common input length): the spec's equal-length invariant, for
rectangular input columns. -/
lemma postProcessMasked_lengths (ed : List (String × List PyVal))
    (n : ℕ) (hrect : ∀ p ∈ ed, (p.2 : List PyVal).length = n) :
    ∀ p ∈ postProcessMasked ed, ∀ q ∈ postProcessMasked ed,
      (p.2 : List PyVal).length = q.2.length := by
  intro p hp q hq
  obtain ⟨a, ha, hap⟩ := List.mem_map.1 hp
  obtain ⟨b, hb, hbq⟩ := List.mem_map.1 hq
  subst hap; subst hbq
  exact maskFilter_length_congr _ _ _ ((hrect a ha).trans (hrect b hb).symm)

/-- The unified column names of the LST DL2 loader, the values of its
`data_names_mapping` (data.py lines 453–469) in dictionary order. -/
def dl2ColumnNames : List String :=
  ["trigger_pattern", "daq_event_number", "event_ra", "event_dec",
   "gammaness", "event_energy", "mjd", "delta_t", "pointing_az",
   "pointing_zd", "pointing_ra", "pointing_dec", "true_energy", "true_zd",
   "true_az"]

/-- Embedding of `LstDl2EventFile.load_events` on an HDF5 file whose
expected table key is missing (lines 513–543): `pandas.read_hdf` raises
`KeyError`, the handler logs and assigns a zero-length array to every
unified column, the finiteness mask (over all-empty columns) is empty,
unit tags are applied (identity on magnitudes), and the `EventSample` is
built with `eff_obs_time=None` recomputed by `calc_eff_obs_time`. -/
def dl2_load_events_missing_key : Except String EventSample := do
  let event_data : List (String × List PyVal) :=
    dl2ColumnNames.map (fun n => (n, []))
  let mask := allFiniteMask (event_data.map (fun p => p.2))
  let ed := event_data.map (fun p => (p.1, maskFilter p.2 mask))
  let era ← getCol ed "event_ra"
  let edec ← getCol ed "event_dec"
  let een ← getCol ed "event_energy"
  let pra ← getCol ed "pointing_ra"
  let pdec ← getCol ed "pointing_dec"
  let paz ← getCol ed "pointing_az"
  let pzd ← getCol ed "pointing_zd"
  let mjd ← getCol ed "mjd"
  let dt ← getCol ed "delta_t"
  mkEventSample era edec een pra pdec paz pzd mjd (some dt) none

/-- A concrete stand-in for the AltAz→ICRS transformation, used to
instantiate transformation parameters in closed statements. -/
def constIcrs : ℚ → ℚ → ℚ → IcrsCoord := fun az alt _ => ⟨az, alt⟩

/-- C7: a DL2 file with the table key missing loads, without raising, to
an `EventSample` whose per-event fields are all zero-length arrays (with
`eff_obs_time` undefined), and the `RunSummary` construction over that
sample completes with its time/pointing bounds (and every other stored
field) unset. -/
theorem dl2_missing_key_recovery :
    dl2_load_events_missing_key =
        .ok ⟨[], [], [], [], [], [], [], [], some [], none⟩ ∧
      ∀ (toIcrs : ℚ → ℚ → ℚ → IcrsCoord) (fn : String) (oid : ℕ),
        (runSummaryOfEvents toIcrs fn oid
            ⟨[], [], [], [], [], [], [], [], some [], none⟩).tel_pointing_start
            = none ∧
          (runSummaryOfEvents toIcrs fn oid
            ⟨[], [], [], [], [], [], [], [], some [], none⟩).tel_pointing_stop
            = none := by
  exact ⟨rfl, fun toIcrs fn oid => ⟨rfl, rfl⟩⟩

/-- C10 counterexample: on a zero-event sample the constructed
`RunSummary` does not keep the source path — `file_name` stays `None`,
because lines 724–725 of data.py assign `file_name` and `obs_id` only
inside the `if len(events.mjd) != 0` branch. -/
theorem run_summary_zero_events_drops_file_name :
    ¬ ((runSummaryOfEvents constIcrs "run.h5" 42
          ⟨[], [], [], [], [], [], [], [], some [], none⟩).file_name
        = some "run.h5") := by
  intro h
  simp [runSummaryOfEvents] at h

/-- C10 amended: with a zero-event sample the constructed `RunSummary`
leaves all four stored fields unset — not only the time and pointing
bounds, but also `file_name` and `obs_id`. -/
theorem run_summary_zero_events_all_unset (toIcrs : ℚ → ℚ → ℚ → IcrsCoord)
    (fn : String) (oid : ℕ) (ev : EventSample) (h : ev.mjd = []) :
    runSummaryOfEvents toIcrs fn oid ev = ⟨none, none, none, none⟩ := by
  unfold runSummaryOfEvents
  simp [h]

/-- Witness for the amended C10 statement at a concrete zero-event
sample. -/
theorem run_summary_zero_events_all_unset_witness :
    (⟨[], [], [], [], [], [], [], [], some [], none⟩ : EventSample).mjd
        = [] ∧
      runSummaryOfEvents constIcrs "run.h5" 42
          ⟨[], [], [], [], [], [], [], [], some [], none⟩
        = ⟨none, none, none, none⟩ :=
  ⟨rfl, run_summary_zero_events_all_unset constIcrs "run.h5" 42 _ rfl⟩

/-- C4 (code-bug evidence): `to_qtable` fills the `dec_tel` entry from
`tel_pointing_start.icrs.ra` (data.py line 783).  On a summary whose
start pointing has ICRS `(ra, dec) = (10°, 20°)` the produced row carries
`(ra_tel, dec_tel) = (10, 10)` — the declination `20` is not what is
stored, contradicting the field's documented meaning. -/
theorem to_qtable_dec_tel_gets_ra :
    ((RunSummary.mk (some 5) (some "run.fits")
            (some ⟨30, 40, 59000, ⟨10, 20⟩⟩)
            (some ⟨31, 41, 59001, ⟨11, 21⟩⟩)).to_qtable).map
          (fun row => (row.ra_tel, row.dec_tel)) = some ((10 : ℚ), (10 : ℚ))
      ∧ (10 : ℚ) ≠ 20 :=
  ⟨rfl, by norm_num⟩

/-! ### The FITS DL3 loader -/

/-- The EVENTS extension of a DL3 FITS file: the three consumed header
keys (each possibly missing) and the table columns present, by FITS
column name. -/
structure Dl3Events where
  ra_pnt : Option ℚ
  dec_pnt : Option ℚ
  livetime : Option ℚ
  cols : List (String × List PyVal)

/-- A DL3 FITS file; `events = none` models a file without an EVENTS
HDU. -/
structure Dl3File where
  events : Option Dl3Events

/-- `data_names_mapping` of the DL3 loader (lines 606–617). -/
def dl3NamesMapping : List (String × String) :=
  [("EVENT_ID", "daq_event_number"), ("RA", "event_ra"),
   ("DEC", "event_dec"), ("GAMMANESS", "gammaness"),
   ("ENERGY", "event_energy"), ("TIME", "mjd"),
   ("AZ_PNT", "pointing_az"), ("ZD_PNT", "pointing_zd"),
   ("RA_PNT", "pointing_ra"), ("DEC_PNT", "pointing_dec")]

/-- The keys of the DL3 `data_units` dictionary (lines 593–604): the
unit-bearing unified columns. -/
def dl3UnitNames : List String :=
  ["event_ra", "event_dec", "event_energy", "pointing_ra", "pointing_dec",
   "pointing_az", "pointing_zd", "mjd", "delta_t", "gammaness"]

/-- Unix-seconds value of the LST epoch `2018-10-01T00:00:00` UTC. -/
def lstEpochUnix : ℚ := 1538352000

/-- MJD of a unix-seconds timestamp. -/
def unixToMjd (t : ℚ) : ℚ := t / 86400 + 40587

/-- Dictionary assignment `event_data[name] = v`: overwrite in place if
the key exists, append otherwise (Python dicts keep insertion order). -/
def setCol (ed : List (String × List PyVal)) (name : String)
    (v : List PyVal) : List (String × List PyVal) :=
  if ed.any (fun p => p.1 = name) then
    ed.map (fun p => if p.1 = name then (name, v) else p)
  else ed ++ [(name, v)]

/-- Embedding of `LstDl3EventFile.load_events` (data.py lines 576–690).
`toAltAz ra dec mjd` stands for the astropy ICRS→AltAz transformation of
the header pointing at one event time, returning `(alt, az)` in degrees.

Control flow mirrors the source:
* a missing EVENTS HDU raises `KeyError` at line 622, which the
  `except KeyError` at line 662 catches and logs — but the local
  `event_data` was never assigned, so the loop at line 666 raises
  `UnboundLocalError` (the loader does not return);
* inside the `try`, the present columns are renamed into `event_data`;
  a missing TIME column or missing `RA_PNT`/`DEC_PNT` header key raises
  `KeyError` there, caught at line 662, leaving `event_data` partially
  populated;
* lines 666–674 build the all-columns finiteness mask and filter each
  column — but line 674 then overwrites every unit-bearing column with
  `item * data_units[key]`, where `item` is the *unfiltered* loop
  variable, so the mask only survives on unit-less columns;
* lines 677–688 build the `EventSample` (dictionary access raises
  `KeyError` for any column left unpopulated), with `delta_t = None` and
  `eff_obs_time` read from the LIVETIME header key. -/
def dl3_load_events (toAltAz : ℚ → ℚ → ℚ → ℚ × ℚ) (file : Dl3File) :
    Except String EventSample :=
  match file.events with
  | none =>
      .error "UnboundLocalError: local variable event_data referenced before assignment"
  | some ev =>
      let ed0 := dl3NamesMapping.filterMap
        (fun p => (ev.cols.lookup p.1).map (fun c => (p.2, c)))
      let afterTry : List (String × List PyVal) :=
        match ed0.lookup "mjd" with
        | none => ed0
        | some mjdRaw =>
            let mjdC := mjdRaw.map
              (fun v => v.map (fun t => unixToMjd (t + lstEpochUnix)))
            let ed1 := setCol ed0 "mjd" mjdC
            match ev.ra_pnt, ev.dec_pnt with
            | some ra, some dec =>
                let zd := mjdC.map
                  (fun v => v.map (fun t => 90 - (toAltAz ra dec t).1))
                let az := mjdC.map
                  (fun v => v.map (fun t => (toAltAz ra dec t).2))
                let ed2 := setCol ed1 "pointing_zd" zd
                let ed3 := setCol ed2 "pointing_az" az
                let ed4 := setCol ed3 "pointing_ra"
                  (List.replicate zd.length (some ra))
                setCol ed4 "pointing_dec"
                  (List.replicate zd.length (some dec))
            | _, _ => ed1
      let mask := allFiniteMask (afterTry.map (fun p => p.2))
      let ed := afterTry.map (fun p =>
        if dl3UnitNames.contains p.1 then (p.1, p.2)
        else (p.1, maskFilter p.2 mask))
      do
        let era ← getCol ed "event_ra"
        let edec ← getCol ed "event_dec"
        let een ← getCol ed "event_energy"
        let pra ← getCol ed "pointing_ra"
        let pdec ← getCol ed "pointing_dec"
        let paz ← getCol ed "pointing_az"
        let pzd ← getCol ed "pointing_zd"
        let mjd ← getCol ed "mjd"
        match ev.livetime with
        | none => .error "KeyError: LIVETIME"
        | some lt => mkEventSample era edec een pra pdec paz pzd mjd none (some lt)

/-- A well-formed DL3 EVENTS table except for one non-finite right
ascension in the second row. -/
def dl3NanRaFile : Dl3File :=
  ⟨some ⟨some 5, some 6, some 100,
    [("EVENT_ID", [some 1, some 2]), ("RA", [some 10, none]),
     ("DEC", [some 1, some 2]), ("GAMMANESS", [some 1, some 1]),
     ("ENERGY", [some 1, some 1]), ("TIME", [some 0, some 1])]⟩⟩

/-- C1 (code-bug evidence): for the DL3 loader the finiteness mask is
not applied to the returned columns: on a file whose RA column is
`[10, NaN]` the returned `event_ra` is still `[10, NaN]` — the row with a
non-finite value in a populated column is retained and a returned column
contains a non-finite value, for every pointing transformation.  (Line
671 filters, but line 674 replaces the filtered column with the
unfiltered `item * data_units[key]` for every unit-bearing column.) -/
theorem dl3_mask_not_applied (toAltAz : ℚ → ℚ → ℚ → ℚ × ℚ) :
    (dl3_load_events toAltAz dl3NanRaFile).map (fun s => s.event_ra)
        = .ok [some 10, none] ∧
      (dl3_load_events toAltAz dl3NanRaFile).map
          (fun s => s.event_ra.all (fun v => isFiniteV v)) = .ok false :=
  ⟨rfl, rfl⟩

/-- C2 (code-bug evidence): on a FITS file without an EVENTS HDU the DL3
loader does not return an `EventSample`: the `except KeyError` handler at
line 662 logs, but execution then reaches line 666 where the never-assigned
local `event_data` raises `UnboundLocalError` — the missing-structure
condition is fatal, for every pointing transformation. -/
theorem dl3_missing_events_hdu_raises (toAltAz : ℚ → ℚ → ℚ → ℚ × ℚ) :
    dl3_load_events toAltAz ⟨none⟩ =
      .error "UnboundLocalError: local variable event_data referenced before assignment" :=
  rfl

/-! ### Obs-id parsing for the legacy ROOT format

The filename pattern of `MagicRootEventFile.get_obs_id` (line 242) is the
regular expression `.*\d+_(\d+)_\w_[0-9\w]+\-W[\d\.\+]+\.root`: a plain
sequence of character classes, each with a `*`, `+` or single-occurrence
quantifier, with one capture group.  It is embedded as a list of
class/quantifier items together with a greedy backtracking matcher that
reproduces the leftmost, greedy-preference semantics of Python `re`. -/

/-- One item of the pattern: a character class, the minimum repetition
count `lo`, and whether the quantifier is unbounded (`*`/`+`). -/
structure PatItem where
  cls : Char → Bool
  lo : ℕ
  many : Bool

/-- Python `\d` (ASCII digits in these file names). -/
def isDigitC (c : Char) : Bool := c.isDigit

/-- Python `\w`: letters, digits and the underscore. -/
def isWordC (c : Char) : Bool := c.isAlphanum || c = '_'

/-- Python `.`: every character except a newline. -/
def isDotC (c : Char) : Bool := c != '\n'

/-- The class `[\d\.\+]`. -/
def isNumPunctC (c : Char) : Bool := c.isDigit || c = '.' || c = '+'

/-- `.*\d+_(\d+)_\w_[0-9\w]+\-W[\d\.\+]+\.root` as items; the capture
group is item index 3 (the class `[0-9\w]` coincides with `\w` because
digits are word characters). -/
def magicPattern : List PatItem :=
  [⟨isDotC, 0, true⟩, ⟨isDigitC, 1, true⟩, ⟨fun c => c = '_', 1, false⟩,
   ⟨isDigitC, 1, true⟩, ⟨fun c => c = '_', 1, false⟩, ⟨isWordC, 1, false⟩,
   ⟨fun c => c = '_', 1, false⟩, ⟨isWordC, 1, true⟩,
   ⟨fun c => c = '-', 1, false⟩, ⟨fun c => c = 'W', 1, false⟩,
   ⟨isNumPunctC, 1, true⟩, ⟨fun c => c = '.', 1, false⟩,
   ⟨fun c => c = 'r', 1, false⟩, ⟨fun c => c = 'o', 1, false⟩,
   ⟨fun c => c = 'o', 1, false⟩, ⟨fun c => c = 't', 1, false⟩]

/-- Length of the longest prefix of the character list inside `cls`. -/
def maxRun (cls : Char → Bool) : List Char → ℕ
  | [] => 0
  | c :: cs => if cls c then maxRun cls cs + 1 else 0

/-- Greedy backtracking over the repetition count of one item: try `n`
characters, then `n - 1`, …, down to `lo`; `k` matches the remaining
items on the remaining characters and yields their counts. -/
def tryFrom (k : List Char → Option (List ℕ)) (s : List Char) (lo : ℕ) :
    ℕ → Option (List ℕ)
  | 0 => if lo = 0 then (k s).map (fun ns => 0 :: ns) else none
  | n + 1 =>
      if n + 1 < lo then none
      else
        match (k (s.drop (n + 1))).map (fun ns => (n + 1) :: ns) with
        | some r => some r
        | none => tryFrom k s lo n

/-- Match the item sequence at the head of `s` (a match may leave a
suffix of `s` unconsumed, as Python `re` does without an anchor),
returning the per-item consumed counts of the greedy-preferred match. -/
def matchItems : List PatItem → List Char → Option (List ℕ)
  | [], _ => some []
  | it :: rest, s =>
      let hi := if it.many then maxRun it.cls s
        else min it.lo (maxRun it.cls s)
      tryFrom (matchItems rest) s it.lo hi

/-- `re.findall` scanning: attempt a match at offset 0, 1, …; return the
offset and item counts of the leftmost match. -/
def scanFrom : List Char → Option (ℕ × List ℕ)
  | [] => (matchItems magicPattern []).map (fun ns => (0, ns))
  | c :: t =>
      match matchItems magicPattern (c :: t) with
      | some ns => some (0, ns)
      | none => (scanFrom t).map (fun p => (p.1 + 1, p.2))

/-- Decimal value of a digit string (Python `int`). -/
def digitsToNat (cs : List Char) : ℕ :=
  cs.foldl (fun a c => a * 10 + (c.toNat - 48)) 0

/-- The first match's capture group: skip the offset and the counts of
items 0–2, take the count of item 3. -/
def findObsIdGroup (s : List Char) : Option (List Char) :=
  (scanFrom s).map (fun p =>
    match p.2 with
    | n0 :: n1 :: n2 :: n3 :: _ => (s.drop (p.1 + n0 + n1 + n2)).take n3
    | _ => [])

/-- Embedding of `MagicRootEventFile.get_obs_id` (lines 240–248):
`int(parsed[0])` of the first capture when `re.findall` finds a match,
`RuntimeError` otherwise. -/
def mr_get_obs_id (file_name : String) : Except String ℕ :=
  match findObsIdGroup file_name.data with
  | some ds => .ok (digitsToNat ds)
  | none => .error ("Can not find observations ID in " ++ file_name)

/-- C8: on the well-formed legacy filename
`20210101_12345_S_SourceName-W0.40+035.root` the parser returns run id
`12345`; on a filename without the run-number group it raises; and in
general it raises the missing-identifier `RuntimeError` exactly when the
pattern does not match the filename. -/
theorem mr_get_obs_id_spec :
    mr_get_obs_id "20210101_12345_S_SourceName-W0.40+035.root"
        = .ok 12345 ∧
      mr_get_obs_id "20210101_S_SourceName.root"
        = .error "Can not find observations ID in 20210101_S_SourceName.root" ∧
      ∀ f : String,
        mr_get_obs_id f = .error ("Can not find observations ID in " ++ f)
          ↔ scanFrom f.data = none := by
  refine ⟨by rfl, by rfl, fun f => ?_⟩
  unfold mr_get_obs_id findObsIdGroup
  cases h : scanFrom f.data <;> simp [h]

end PyBkgModel
